import Mathlib

/-!
Verification of the activity-lifecycle, daily-call generation and dashboard
bucketing logic of a small sales CRM.  The definitions below are a shallow
embedding of the TypeScript hooks (`src/hooks/useActivities.ts`), the
completion-flow components (`ActivityModal`, `MandatoryNextActivityModal`)
and the Postgres function `get_prospects_for_daily_calls`.
-/

namespace Kadcr

/-! ## JavaScript string trimming

`String.prototype.trim` removes whitespace from both ends of a string.
We embed it as a function on the character list of a `String`.
-/

def isJsWhitespace (c : Char) : Bool := c.isWhitespace

def jsTrimList (l : List Char) : List Char :=
  ((l.dropWhile isJsWhitespace).reverse.dropWhile isJsWhitespace).reverse

def jsTrim (s : String) : String := String.mk (jsTrimList s.data)

theorem dropWhile_self_idem (p : α → Bool) (l : List α) :
    (l.dropWhile p).dropWhile p = l.dropWhile p := by
  induction l with
  | nil => rfl
  | cons a t ih =>
    by_cases h : p a = true
    · simp [List.dropWhile_cons, h, ih]
    · simp [List.dropWhile_cons, h]

theorem dropWhile_head_not (p : α → Bool) (l : List α) (a : α) (t : List α)
    (h : l.dropWhile p = a :: t) : p a = false := by
  induction l with
  | nil => simp [List.dropWhile] at h
  | cons b u ih =>
    by_cases hb : p b = true
    · simp [List.dropWhile_cons, hb] at h
      exact ih h
    · simp [List.dropWhile_cons, hb] at h
      simp [← h.1]
      simpa using hb

theorem dropWhile_eq_self_of_head (p : α → Bool) (l : List α)
    (h : ∀ a t, l = a :: t → p a = false) : l.dropWhile p = l := by
  cases l with
  | nil => rfl
  | cons a t => simp [List.dropWhile_cons, h a t rfl]

theorem exists_prefix_dropWhile (p : α → Bool) (l : List α) :
    ∃ u, l = u ++ l.dropWhile p := by
  induction l with
  | nil => exact ⟨[], rfl⟩
  | cons a t ih =>
    by_cases h : p a = true
    · obtain ⟨u, hu⟩ := ih
      exact ⟨a :: u, by simp [List.dropWhile_cons, h, ← hu]⟩
    · exact ⟨[], by simp [List.dropWhile_cons, h]⟩

theorem jsTrimList_dropWhile (l : List Char) :
    (jsTrimList l).dropWhile isJsWhitespace = jsTrimList l := by
  unfold jsTrimList
  apply dropWhile_eq_self_of_head
  intro a s hs
  obtain ⟨u, hu⟩ := exists_prefix_dropWhile isJsWhitespace (l.dropWhile isJsWhitespace).reverse
  have hA2 : l.dropWhile isJsWhitespace
      = ((l.dropWhile isJsWhitespace).reverse.dropWhile isJsWhitespace).reverse ++ u.reverse := by
    have := congrArg List.reverse hu
    simpa [List.reverse_append] using this
  rw [hs] at hA2
  exact dropWhile_head_not isJsWhitespace l a (s ++ u.reverse) (by simpa using hA2)

theorem jsTrimList_reverse_dropWhile (l : List Char) :
    (jsTrimList l).reverse.dropWhile isJsWhitespace = (jsTrimList l).reverse := by
  unfold jsTrimList
  rw [List.reverse_reverse]
  exact dropWhile_self_idem isJsWhitespace _

theorem jsTrimList_idem (l : List Char) : jsTrimList (jsTrimList l) = jsTrimList l := by
  conv_lhs => rw [jsTrimList]
  rw [jsTrimList_dropWhile, jsTrimList_reverse_dropWhile, List.reverse_reverse]

theorem jsTrim_idem (s : String) : jsTrim (jsTrim s) = jsTrim s := by
  show String.mk (jsTrimList (jsTrimList s.data)) = String.mk (jsTrimList s.data)
  rw [jsTrimList_idem]

theorem jsTrim_length_idem (s : String) :
    (jsTrim (jsTrim s)).length = (jsTrim s).length := by
  rw [jsTrim_idem]

/-! ## Data model

Mirrors the `activities`, `prospects` and `user_profiles` tables.
Dates and timestamps are modelled as integers (days); the code compares
ISO date strings, which agrees with integer comparison on days.
-/

inductive ActivityStatus where
  | pending
  | completed
  | blocked
deriving DecidableEq, Repr

inductive CreatedBy where
  | system
  | manager
  | salesperson
deriving DecidableEq, Repr

structure Activity where
  id : Nat
  prospect_id : Option Nat
  activity_type : String
  scheduled_date : Int
  status : ActivityStatus
  notes : Option String
  completion_comment : Option String
  block_reason : Option String
  assigned_to : Option Nat
  created_by : CreatedBy
  completed_at : Option Int
  created_at : Int
deriving DecidableEq, Repr

structure Prospect where
  id : Nat
  company_name : String
  current_phase : String
deriving DecidableEq, Repr

structure UserProfile where
  id : Nat
  full_name : String
  role : String
deriving DecidableEq, Repr

structure Db where
  prospects : List Prospect
  activities : List Activity
  user_profiles : List UserProfile
deriving DecidableEq, Repr

/-! ## Activity mutations (`src/hooks/useActivities.ts`)

Each mutation is the row update the hook sends for the targeted activity.
-/

def completeActivityUpdate (now : Int) (comment : String) (a : Activity) : Activity :=
  { a with
    status := ActivityStatus.completed
    completed_at := some now
    completion_comment := some comment }

def notCompleteActivityUpdate (comment : String) (a : Activity) : Activity :=
  { a with completion_comment := some comment }

def blockActivityUpdate (blockReason : String) (a : Activity) : Activity :=
  { a with
    status := ActivityStatus.blocked
    block_reason := some blockReason
    completion_comment := some blockReason }

def unblockActivityUpdate (a : Activity) : Activity :=
  { a with
    status := ActivityStatus.pending
    block_reason := none }

/-! ## ActivityModal handlers (`src/components/activities/ActivityModal.tsx`)

`validateComment` embeds the guard run before every terminal submit; the
handlers return `none` when validation rejects the submission (no request
is sent).  On a successful completion of a prospect-linked activity the
flow transitions to the mandatory next-activity modal; general activities
close the flow immediately.
-/

def minCommentLength : Nat := 10

def validateComment (comment : String) : Bool :=
  !((jsTrim comment).length == 0 || (jsTrim comment).length < minCommentLength)

inductive FlowResult where
  | awaitingNext (prospectId : Nat) (prospectName : String) (assignedTo : Option Nat)
  | closed
deriving DecidableEq, Repr

def handleComplete (now : Int) (a : Activity) (comment : String)
    (prospectName : String) : Option (Activity × FlowResult) :=
  if validateComment comment then
    let a2 := completeActivityUpdate now (jsTrim comment) a
    match a.prospect_id with
    | some pid => some (a2, FlowResult.awaitingNext pid prospectName a.assigned_to)
    | none => some (a2, FlowResult.closed)
  else none

def handleNotComplete (a : Activity) (comment : String) : Option Activity :=
  if validateComment comment then
    some (notCompleteActivityUpdate (jsTrim comment) a)
  else none

def handleBlock (a : Activity) (comment : String) : Option Activity :=
  if validateComment comment then
    some (blockActivityUpdate (jsTrim comment) a)
  else none

inductive UiOp where
  | complete (now : Int) (comment : String) (prospectName : String)
  | notComplete (comment : String)
  | block (comment : String)
  | unblock
deriving DecidableEq, Repr

def applyUiOp : UiOp → Activity → Option Activity
  | UiOp.complete now c nm, a => (handleComplete now a c nm).map Prod.fst
  | UiOp.notComplete c, a => handleNotComplete a c
  | UiOp.block c, a => handleBlock a c
  | UiOp.unblock, a => some (unblockActivityUpdate a)

/-- Invariant claimed for completed activities: a non-null comment whose
trimmed length is at least 10 characters. -/
def completedCommentInv (a : Activity) : Prop :=
  a.status = ActivityStatus.completed →
    ∃ c, a.completion_comment = some c ∧ 10 ≤ (jsTrim c).length

/-- Invariant claimed for blocked activities: a non-null block reason of at
least 10 characters. -/
def blockedReasonInv (a : Activity) : Prop :=
  a.status = ActivityStatus.blocked →
    ∃ r, a.block_reason = some r ∧ 10 ≤ r.length

/-! ## Mandatory next-activity modal (`MandatoryNextActivityModal`)

State machine of the follow-up modal: the component's form state plus the
parent flag that renders it, a counter of attempted create requests, and
the activity created on exit.
-/

structure NextModalState where
  activityType : Option String
  scheduledDate : Option Int
  description : String
  showCloseWarning : Bool
deriving DecidableEq, Repr

structure NextFlow where
  modal : NextModalState
  closed : Bool
  network : Nat
  created : Option Activity
deriving DecidableEq, Repr

def initNextFlow : NextFlow :=
  { modal :=
      { activityType := none
        scheduledDate := none
        description := ""
        showCloseWarning := false }
    closed := false
    network := 0
    created := none }

inductive NextEvent where
  | setType (t : String)
  | setDate (d : Int)
  | setDescription (s : String)
  | pointerDownOutside
  | escapeKeyDown
  | openChange (newOpen : Bool)
  | cancelWarning
  | submit (createOk : Bool)
deriving DecidableEq, Repr

def minDescriptionLength : Nat := 5

def validateFields (today : Int) (m : NextModalState) : Bool :=
  match m.activityType with
  | none => false
  | some _ =>
    match m.scheduledDate with
    | none => false
    | some d =>
      if d < today then false
      else
        !((jsTrim m.description).length == 0 ||
          (jsTrim m.description).length < minDescriptionLength)

def nextActivityRecord (today : Int) (pid : Nat) (asg : Option Nat) (mgr : Bool)
    (m : NextModalState) : Activity :=
  { id := 0
    prospect_id := some pid
    activity_type := m.activityType.getD ""
    scheduled_date := m.scheduledDate.getD 0
    status := ActivityStatus.pending
    notes := if (jsTrim m.description).length == 0 then none else some (jsTrim m.description)
    completion_comment := none
    block_reason := none
    assigned_to := asg
    created_by := if mgr then CreatedBy.manager else CreatedBy.salesperson
    completed_at := none
    created_at := today }

def nextStep (today : Int) (pid : Nat) (asg : Option Nat) (mgr : Bool)
    (f : NextFlow) (e : NextEvent) : NextFlow :=
  if f.closed then f
  else
    match e with
    | NextEvent.setType t => { f with modal := { f.modal with activityType := some t } }
    | NextEvent.setDate d => { f with modal := { f.modal with scheduledDate := some d } }
    | NextEvent.setDescription s => { f with modal := { f.modal with description := s } }
    | NextEvent.pointerDownOutside => { f with modal := { f.modal with showCloseWarning := true } }
    | NextEvent.escapeKeyDown => { f with modal := { f.modal with showCloseWarning := true } }
    | NextEvent.openChange newOpen =>
        if newOpen then f
        else { f with modal := { f.modal with showCloseWarning := true } }
    | NextEvent.cancelWarning => { f with modal := { f.modal with showCloseWarning := false } }
    | NextEvent.submit ok =>
        if validateFields today f.modal then
          if ok then
            { f with
              closed := true
              network := f.network + 1
              created := some (nextActivityRecord today pid asg mgr f.modal) }
          else { f with network := f.network + 1 }
        else f

def runNextFlow (today : Int) (pid : Nat) (asg : Option Nat) (mgr : Bool)
    (es : List NextEvent) : NextFlow :=
  es.foldl (nextStep today pid asg mgr) initNextFlow

/-! ## Daily-call eligibility (`get_prospects_for_daily_calls`, SQL)

The function returns up to three prospects in phase Prospección with no
pending activity scheduled within the next seven days, no completed
activity within the last three days and no system-generated call created
within the last two days, in random order.  The random ordering is a
parameter `shuffle` assumed (in the theorems) to permute its input.
-/

def hasPendingSoon (today : Int) (acts : List Activity) (pid : Nat) : Bool :=
  acts.any fun a =>
    decide (a.prospect_id = some pid) &&
    decide (a.status = ActivityStatus.pending) &&
    decide (a.scheduled_date ≤ today + 7)

def hasCompletedRecent (today : Int) (acts : List Activity) (pid : Nat) : Bool :=
  acts.any fun a =>
    decide (a.prospect_id = some pid) &&
    decide (a.status = ActivityStatus.completed) &&
    (match a.completed_at with
     | some t => decide (today - 3 ≤ t)
     | none => false)

def hasRecentSystemCall (today : Int) (acts : List Activity) (pid : Nat) : Bool :=
  acts.any fun a =>
    decide (a.prospect_id = some pid) &&
    decide (a.activity_type = "Llamada") &&
    decide (a.created_by = CreatedBy.system) &&
    decide (today - 2 ≤ a.created_at)

def eligibleForDailyCall (today : Int) (db : Db) (p : Prospect) : Bool :=
  decide (p.current_phase = "Prospección") &&
  !hasPendingSoon today db.activities p.id &&
  !hasCompletedRecent today db.activities p.id &&
  !hasRecentSystemCall today db.activities p.id

def get_prospects_for_daily_calls (today : Int) (db : Db)
    (shuffle : List Prospect → List Prospect) : List Prospect :=
  (shuffle (db.prospects.filter (eligibleForDailyCall today db))).take 3

/-! ## Daily-call generation (`useGenerateDailyCalls`)

Runs only Monday (1) through Thursday (4); skips if any system-generated
call activity was already created today; looks up a salesperson; asks the
SQL function for eligible prospects; inserts at most three pending
"Llamada" activities scheduled today and assigned to the salesperson.
-/

def countTodaySystemCalls (today : Int) (db : Db) : Nat :=
  (db.activities.filter fun a =>
    decide (a.activity_type = "Llamada") &&
    decide (a.created_by = CreatedBy.system) &&
    decide (today ≤ a.created_at)).length

def dailyCallActivity (today : Int) (spId : Nat) (p : Prospect) : Activity :=
  { id := 0
    prospect_id := some p.id
    activity_type := "Llamada"
    scheduled_date := today
    status := ActivityStatus.pending
    notes := some ("Primera llamada de calificación - " ++ p.company_name)
    completion_comment := none
    block_reason := none
    assigned_to := some spId
    created_by := CreatedBy.system
    completed_at := none
    created_at := today }

def generateDailyCalls (today : Int) (dayOfWeek : Nat) (db : Db)
    (shuffle : List Prospect → List Prospect) : Nat × Db :=
  if dayOfWeek < 1 ∨ 4 < dayOfWeek then (0, db)
  else if 0 < countTodaySystemCalls today db then (0, db)
  else
    match db.user_profiles.find? (fun u => decide (u.role = "salesperson")) with
    | none => (0, db)
    | some sp =>
      let prospects := get_prospects_for_daily_calls today db shuffle
      if prospects.isEmpty then (0, db)
      else
        let newActs := (prospects.take 3).map (dailyCallActivity today sp.id)
        (newActs.length, { db with activities := db.activities ++ newActs })

/-! ## Dashboard bucket queries (`useActivities.ts` queries)

Each bucket is a filter over the rows visible to the viewer.  The
row-level security policies for `activities` are applied server side.
-/

/-- Modelled from the spec: the row-level security policies on the
`activities` table are not part of the repository snapshot (the hooks only
note that RLS handles role-based filtering automatically).  Per the spec,
salespersons see only rows where `assigned_to` equals their own id and
managers see all rows regardless of assignment. -/
def rlsVisible (viewer : UserProfile) (a : Activity) : Bool :=
  if viewer.role = "manager" then true
  else decide (a.assigned_to = some viewer.id)

def visibleActivities (viewer : UserProfile) (db : Db) : List Activity :=
  db.activities.filter (rlsVisible viewer)

def urgentFilter (today : Int) (a : Activity) : Bool :=
  decide (a.status = ActivityStatus.pending) &&
  decide (a.scheduled_date < today) &&
  a.prospect_id.isSome

def todayFilter (today : Int) (a : Activity) : Bool :=
  decide (a.status = ActivityStatus.pending) &&
  decide (a.scheduled_date = today) &&
  a.prospect_id.isSome

def weekFilter (today : Int) (a : Activity) : Bool :=
  decide (a.status = ActivityStatus.pending) &&
  decide (today < a.scheduled_date) &&
  decide (a.scheduled_date ≤ today + 7) &&
  a.prospect_id.isSome

def newCallsFilter (today : Int) (a : Activity) : Bool :=
  decide (a.status = ActivityStatus.pending) &&
  decide (a.activity_type = "Llamada") &&
  decide (a.scheduled_date = today) &&
  decide (a.created_by = CreatedBy.system)

def blockedFilter (a : Activity) : Bool :=
  decide (a.status = ActivityStatus.blocked)

def generalFilter (a : Activity) : Bool :=
  decide (a.status = ActivityStatus.pending) && a.prospect_id.isNone

def urgentActivities (today : Int) (viewer : UserProfile) (db : Db) : List Activity :=
  (visibleActivities viewer db).filter (urgentFilter today)

def todayActivities (today : Int) (viewer : UserProfile) (db : Db) : List Activity :=
  (visibleActivities viewer db).filter (todayFilter today)

def weekActivities (today : Int) (viewer : UserProfile) (db : Db) : List Activity :=
  (visibleActivities viewer db).filter (weekFilter today)

def newCallsActivities (today : Int) (viewer : UserProfile) (db : Db) : List Activity :=
  ((visibleActivities viewer db).filter (newCallsFilter today)).take 3

def blockedActivities (viewer : UserProfile) (db : Db) : List Activity :=
  (visibleActivities viewer db).filter blockedFilter

def generalActivities (viewer : UserProfile) (db : Db) : List Activity :=
  (visibleActivities viewer db).filter generalFilter

/-! ## Helper lemmas -/

theorem validateComment_iff (c : String) :
    validateComment c = true ↔ 10 ≤ (jsTrim c).length := by
  simp [validateComment, minCommentLength]
  omega

theorem handleComplete_eq_some {now : Int} {a : Activity} {comment nm : String}
    {a2 : Activity} {fr : FlowResult}
    (h : handleComplete now a comment nm = some (a2, fr)) :
    validateComment comment = true ∧
    a2 = completeActivityUpdate now (jsTrim comment) a ∧
    ((∃ pid, a.prospect_id = some pid ∧
        fr = FlowResult.awaitingNext pid nm a.assigned_to) ∨
     (a.prospect_id = none ∧ fr = FlowResult.closed)) := by
  unfold handleComplete at h
  split at h
  · rename_i hv
    refine ⟨hv, ?_⟩
    cases hp : a.prospect_id with
    | some pid =>
      rw [hp] at h
      simp only [Option.some.injEq, Prod.mk.injEq] at h
      exact ⟨h.1.symm, Or.inl ⟨pid, rfl, h.2.symm⟩⟩
    | none =>
      rw [hp] at h
      simp only [Option.some.injEq, Prod.mk.injEq] at h
      exact ⟨h.1.symm, Or.inr ⟨rfl, h.2.symm⟩⟩
  · exact absurd h (by simp)

theorem handleBlock_eq_some {a : Activity} {comment : String} {b : Activity}
    (h : handleBlock a comment = some b) :
    validateComment comment = true ∧ b = blockActivityUpdate (jsTrim comment) a := by
  unfold handleBlock at h
  split at h
  · rename_i hv
    simp only [Option.some.injEq] at h
    exact ⟨hv, h.symm⟩
  · exact absurd h (by simp)

theorem handleNotComplete_eq_some {a : Activity} {comment : String} {b : Activity}
    (h : handleNotComplete a comment = some b) :
    validateComment comment = true ∧ b = notCompleteActivityUpdate (jsTrim comment) a := by
  unfold handleNotComplete at h
  split at h
  · rename_i hv
    simp only [Option.some.injEq] at h
    exact ⟨hv, h.symm⟩
  · exact absurd h (by simp)

/-! ## Claim theorems -/

/-- C1: a completed activity carries a non-null completion comment whose
trimmed length is at least 10 characters; the complete-activity operation
is only reachable through `validateComment`, i.e. with a comment whose
trimmed length is at least 10, and it sets the status to completed, sets
`completed_at` and writes the trimmed comment.  The invariant is preserved
by every modal operation. -/
theorem c1_completed_requires_long_comment
    (now : Int) (a : Activity) (comment nm : String) (a2 : Activity) (fr : FlowResult)
    (op : UiOp) (b : Activity) :
    (handleComplete now a comment nm = some (a2, fr) →
       10 ≤ (jsTrim comment).length ∧
       a2.status = ActivityStatus.completed ∧
       a2.completed_at = some now ∧
       a2.completion_comment = some (jsTrim comment) ∧
       completedCommentInv a2) ∧
    (applyUiOp op a = some b → completedCommentInv a → completedCommentInv b) := by
  constructor
  · intro h
    obtain ⟨hv, ha2, _⟩ := handleComplete_eq_some h
    have hlen : 10 ≤ (jsTrim comment).length := (validateComment_iff comment).mp hv
    subst ha2
    refine ⟨hlen, rfl, rfl, rfl, ?_⟩
    intro _
    exact ⟨jsTrim comment, rfl, by rw [jsTrim_idem]; exact hlen⟩
  · intro h hinv
    cases op with
    | complete now2 c2 nm2 =>
      simp only [applyUiOp, Option.map_eq_some'] at h
      obtain ⟨⟨b2, fr2⟩, hb2, hfst⟩ := h
      obtain ⟨hv, hb2eq, _⟩ := handleComplete_eq_some hb2
      have hlen : 10 ≤ (jsTrim c2).length := (validateComment_iff c2).mp hv
      subst hfst
      subst hb2eq
      intro _
      exact ⟨jsTrim c2, rfl, by rw [jsTrim_idem]; exact hlen⟩
    | notComplete c2 =>
      simp only [applyUiOp] at h
      obtain ⟨hv, hbeq⟩ := handleNotComplete_eq_some h
      have hlen : 10 ≤ (jsTrim c2).length := (validateComment_iff c2).mp hv
      subst hbeq
      intro _
      exact ⟨jsTrim c2, rfl, by rw [jsTrim_idem]; exact hlen⟩
    | block c2 =>
      simp only [applyUiOp] at h
      obtain ⟨_, hbeq⟩ := handleBlock_eq_some h
      subst hbeq
      intro hc
      exact absurd hc (by simp [blockActivityUpdate])
    | unblock =>
      simp only [applyUiOp, Option.some.injEq] at h
      subst h
      intro hc
      exact absurd hc (by simp [unblockActivityUpdate])

def wAct : Activity :=
  { id := 1
    prospect_id := some 5
    activity_type := "Llamada"
    scheduled_date := 3
    status := ActivityStatus.pending
    notes := none
    completion_comment := none
    block_reason := none
    assigned_to := some 2
    created_by := CreatedBy.system
    completed_at := none
    created_at := 0 }

def wAct2 : Activity :=
  { wAct with
    status := ActivityStatus.completed
    completed_at := some 0
    completion_comment := some "Cliente acepto cotizacion" }

theorem c1_witness :
    (10 ≤ (jsTrim "Cliente acepto cotizacion").length ∧
     wAct2.status = ActivityStatus.completed ∧
     wAct2.completed_at = some 0 ∧
     wAct2.completion_comment = some (jsTrim "Cliente acepto cotizacion") ∧
     completedCommentInv wAct2) ∧
    completedCommentInv wAct2 :=
  ⟨(c1_completed_requires_long_comment 0 wAct "Cliente acepto cotizacion" "Hotel Radisson"
      wAct2 (FlowResult.awaitingNext 5 "Hotel Radisson" (some 2)) UiOp.unblock wAct).1
      (by decide),
   (c1_completed_requires_long_comment 0 wAct "Cliente acepto cotizacion" "Hotel Radisson"
      wAct2 (FlowResult.awaitingNext 5 "Hotel Radisson" (some 2))
      (UiOp.complete 0 "Cliente acepto cotizacion" "Hotel Radisson") wAct2).2
      (by decide) (fun h => absurd h (by decide))⟩

/-- C2: a blocked activity carries a non-null block reason of at least 10
characters (the block handler is guarded by `validateComment` and stores
the trimmed reason), the invariant is preserved by every modal operation,
and the unblock operation applied to any activity sets the status to
pending and the block reason to null. -/
theorem c2_blocked_requires_reason
    (a : Activity) (comment : String) (b : Activity) (op : UiOp) (b2 : Activity) :
    (handleBlock a comment = some b →
       b.status = ActivityStatus.blocked ∧
       b.block_reason = some (jsTrim comment) ∧
       10 ≤ (jsTrim comment).length ∧
       blockedReasonInv b) ∧
    (applyUiOp op a = some b2 → blockedReasonInv a → blockedReasonInv b2) ∧
    ((unblockActivityUpdate a).status = ActivityStatus.pending ∧
     (unblockActivityUpdate a).block_reason = none) := by
  refine ⟨?_, ?_, rfl, rfl⟩
  · intro h
    obtain ⟨hv, hbeq⟩ := handleBlock_eq_some h
    have hlen : 10 ≤ (jsTrim comment).length := (validateComment_iff comment).mp hv
    subst hbeq
    exact ⟨rfl, rfl, hlen, fun _ => ⟨jsTrim comment, rfl, hlen⟩⟩
  · intro h hinv
    cases op with
    | complete now2 c2 nm2 =>
      simp only [applyUiOp, Option.map_eq_some'] at h
      obtain ⟨⟨c, fr2⟩, hc, hfst⟩ := h
      obtain ⟨_, hceq, _⟩ := handleComplete_eq_some hc
      subst hfst
      subst hceq
      intro hs
      exact absurd hs (by simp [completeActivityUpdate])
    | notComplete c2 =>
      simp only [applyUiOp] at h
      obtain ⟨_, hbeq⟩ := handleNotComplete_eq_some h
      subst hbeq
      intro hs
      obtain ⟨r, hr, hrlen⟩ := hinv hs
      exact ⟨r, hr, hrlen⟩
    | block c2 =>
      simp only [applyUiOp] at h
      obtain ⟨hv, hbeq⟩ := handleBlock_eq_some h
      have hlen : 10 ≤ (jsTrim c2).length := (validateComment_iff c2).mp hv
      subst hbeq
      intro _
      exact ⟨jsTrim c2, rfl, hlen⟩
    | unblock =>
      simp only [applyUiOp, Option.some.injEq] at h
      subst h
      intro hs
      exact absurd hs (by simp [unblockActivityUpdate])

def wBlocked : Activity :=
  { wAct with
    status := ActivityStatus.blocked
    block_reason := some "Cliente de vacaciones hasta 15-feb"
    completion_comment := some "Cliente de vacaciones hasta 15-feb" }

theorem c2_witness :
    (wBlocked.status = ActivityStatus.blocked ∧
     wBlocked.block_reason = some (jsTrim "Cliente de vacaciones hasta 15-feb") ∧
     10 ≤ (jsTrim "Cliente de vacaciones hasta 15-feb").length ∧
     blockedReasonInv wBlocked) ∧
    blockedReasonInv wBlocked ∧
    ((unblockActivityUpdate wBlocked).status = ActivityStatus.pending ∧
     (unblockActivityUpdate wBlocked).block_reason = none) :=
  ⟨(c2_blocked_requires_reason wAct "Cliente de vacaciones hasta 15-feb" wBlocked
      UiOp.unblock wAct).1 (by decide),
   (c2_blocked_requires_reason wAct "Cliente de vacaciones hasta 15-feb" wBlocked
      (UiOp.block "Cliente de vacaciones hasta 15-feb") wBlocked).2.1
      (by decide) (fun h => absurd h (by decide)),
   (c2_blocked_requires_reason wBlocked "Cliente de vacaciones hasta 15-feb" wBlocked
      UiOp.unblock wBlocked).2.2⟩

/-- C10: blocking writes the reason into both `block_reason` and
`completion_comment` while setting the status to blocked; unblocking
changes only the status and `block_reason`, so the completion comment
written by the block survives unblocking (as do all other fields). -/
theorem c10_block_writes_comment (r : String) (a : Activity) :
    (blockActivityUpdate r a).status = ActivityStatus.blocked ∧
    (blockActivityUpdate r a).block_reason = some r ∧
    (blockActivityUpdate r a).completion_comment = some r ∧
    (unblockActivityUpdate (blockActivityUpdate r a)).status = ActivityStatus.pending ∧
    (unblockActivityUpdate (blockActivityUpdate r a)).block_reason = none ∧
    (unblockActivityUpdate (blockActivityUpdate r a)).completion_comment = some r ∧
    ∀ b : Activity,
      (unblockActivityUpdate b).completion_comment = b.completion_comment ∧
      (unblockActivityUpdate b).completed_at = b.completed_at ∧
      (unblockActivityUpdate b).notes = b.notes ∧
      (unblockActivityUpdate b).assigned_to = b.assigned_to ∧
      (unblockActivityUpdate b).scheduled_date = b.scheduled_date ∧
      (unblockActivityUpdate b).activity_type = b.activity_type ∧
      (unblockActivityUpdate b).created_by = b.created_by ∧
      (unblockActivityUpdate b).prospect_id = b.prospect_id :=
  ⟨rfl, rfl, rfl, rfl, rfl, rfl, fun _ => ⟨rfl, rfl, rfl, rfl, rfl, rfl, rfl, rfl⟩⟩

theorem validateFields_iff (today : Int) (m : NextModalState) :
    validateFields today m = true ↔
      (∃ t, m.activityType = some t) ∧
      (∃ d, m.scheduledDate = some d ∧ today ≤ d) ∧
      minDescriptionLength ≤ (jsTrim m.description).length := by
  constructor
  · intro h
    unfold validateFields at h
    cases ht : m.activityType with
    | none => rw [ht] at h; simp at h
    | some t =>
      rw [ht] at h
      cases hd : m.scheduledDate with
      | none => rw [hd] at h; simp at h
      | some d =>
        rw [hd] at h
        by_cases hlt : d < today
        · simp [hlt] at h
        · simp [hlt, minDescriptionLength] at h
          refine ⟨⟨t, rfl⟩, ⟨d, rfl, Int.not_lt.mp hlt⟩, ?_⟩
          simp only [minDescriptionLength]
          omega
  · rintro ⟨⟨t, ht⟩, ⟨d, hd, hled⟩, hlen⟩
    unfold validateFields
    rw [ht, hd]
    have hnlt : ¬d < today := Int.not_lt.mpr hled
    simp only [minDescriptionLength] at hlen ⊢
    simp [hnlt]
    omega

theorem nextStep_of_closed (today : Int) (pid : Nat) (asg : Option Nat) (mgr : Bool)
    (f : NextFlow) (e : NextEvent) (h : f.closed = true) :
    nextStep today pid asg mgr f e = f := by
  simp [nextStep, h]

theorem nextStep_closed_of (today : Int) (pid : Nat) (asg : Option Nat) (mgr : Bool)
    (f : NextFlow) (e : NextEvent)
    (h : (nextStep today pid asg mgr f e).closed = true) :
    f.closed = true ∨
      (e = NextEvent.submit true ∧ validateFields today f.modal = true) := by
  by_cases hcl : f.closed = true
  · exact Or.inl hcl
  · cases e with
    | setType t => simp [nextStep, hcl] at h
    | setDate d => simp [nextStep, hcl] at h
    | setDescription s => simp [nextStep, hcl] at h
    | pointerDownOutside => simp [nextStep, hcl] at h
    | escapeKeyDown => simp [nextStep, hcl] at h
    | openChange newOpen =>
      cases newOpen with
      | true => simp [nextStep, hcl] at h
      | false => simp [nextStep, hcl] at h
    | cancelWarning => simp [nextStep, hcl] at h
    | submit ok =>
      by_cases hv : validateFields today f.modal = true
      · cases ok with
        | true => exact Or.inr ⟨rfl, hv⟩
        | false => simp [nextStep, hcl, hv] at h
      · simp [nextStep, hcl, hv] at h

def nextCreatedInv (pid : Nat) (f : NextFlow) : Prop :=
  f.closed = true →
    ∃ na, f.created = some na ∧ na.prospect_id = some pid ∧
      na.status = ActivityStatus.pending

theorem nextCreatedInv_of_frame {pid : Nat} {f g : NextFlow}
    (hc : g.closed = f.closed) (hcr : g.created = f.created)
    (h : nextCreatedInv pid f) : nextCreatedInv pid g := by
  intro hcl
  rw [hc] at hcl
  rw [hcr]
  exact h hcl

theorem nextStep_preserves_createdInv (today : Int) (pid : Nat) (asg : Option Nat)
    (mgr : Bool) (f : NextFlow) (e : NextEvent) (h : nextCreatedInv pid f) :
    nextCreatedInv pid (nextStep today pid asg mgr f e) := by
  by_cases hcl : f.closed = true
  · rw [nextStep_of_closed today pid asg mgr f e hcl]
    exact h
  · cases e with
    | setType t => exact nextCreatedInv_of_frame (by simp [nextStep, hcl]) (by simp [nextStep, hcl]) h
    | setDate d => exact nextCreatedInv_of_frame (by simp [nextStep, hcl]) (by simp [nextStep, hcl]) h
    | setDescription s => exact nextCreatedInv_of_frame (by simp [nextStep, hcl]) (by simp [nextStep, hcl]) h
    | pointerDownOutside => exact nextCreatedInv_of_frame (by simp [nextStep, hcl]) (by simp [nextStep, hcl]) h
    | escapeKeyDown => exact nextCreatedInv_of_frame (by simp [nextStep, hcl]) (by simp [nextStep, hcl]) h
    | openChange newOpen =>
      cases newOpen with
      | true => exact nextCreatedInv_of_frame (by simp [nextStep, hcl]) (by simp [nextStep, hcl]) h
      | false => exact nextCreatedInv_of_frame (by simp [nextStep, hcl]) (by simp [nextStep, hcl]) h
    | cancelWarning => exact nextCreatedInv_of_frame (by simp [nextStep, hcl]) (by simp [nextStep, hcl]) h
    | submit ok =>
      by_cases hv : validateFields today f.modal = true
      · cases ok with
        | true =>
          intro _
          refine ⟨nextActivityRecord today pid asg mgr f.modal, ?_, rfl, rfl⟩
          simp [nextStep, hcl, hv]
        | false =>
          exact nextCreatedInv_of_frame (by simp [nextStep, hcl, hv]) (by simp [nextStep, hcl, hv]) h
      · exact nextCreatedInv_of_frame (by simp [nextStep, hcl, hv]) (by simp [nextStep, hcl, hv]) h

theorem foldl_preserves_createdInv (today : Int) (pid : Nat) (asg : Option Nat)
    (mgr : Bool) (es : List NextEvent) (f : NextFlow) (h : nextCreatedInv pid f) :
    nextCreatedInv pid (es.foldl (nextStep today pid asg mgr) f) := by
  induction es generalizing f with
  | nil => exact h
  | cons e es ih =>
    exact ih _ (nextStep_preserves_createdInv today pid asg mgr f e h)

theorem runNextFlow_createdInv (today : Int) (pid : Nat) (asg : Option Nat)
    (mgr : Bool) (es : List NextEvent) :
    nextCreatedInv pid (runNextFlow today pid asg mgr es) :=
  foldl_preserves_createdInv today pid asg mgr es initNextFlow (fun hcl => nomatch hcl)

/-- C3: completing a prospect-linked activity transitions the flow into the
mandatory next-activity step (carrying the activity's prospect), and that
flow can only reach the closed state holding a newly created pending
activity for that prospect; completing a general (prospect-less) activity
closes the flow immediately. -/
theorem c3_mandatory_followup
    (now : Int) (a : Activity) (comment nm : String) (a2 : Activity) (fr : FlowResult)
    (h : handleComplete now a comment nm = some (a2, fr)) :
    (a.prospect_id = none → fr = FlowResult.closed) ∧
    ∀ pid, a.prospect_id = some pid →
      fr = FlowResult.awaitingNext pid nm a.assigned_to ∧
      ∀ (today : Int) (asg : Option Nat) (mgr : Bool) (es : List NextEvent),
        (runNextFlow today pid asg mgr es).closed = true →
        ∃ na, (runNextFlow today pid asg mgr es).created = some na ∧
          na.prospect_id = some pid ∧ na.status = ActivityStatus.pending := by
  obtain ⟨_, _, hfr⟩ := handleComplete_eq_some h
  constructor
  · intro hnone
    rcases hfr with ⟨pid, hp, _⟩ | ⟨_, hcl⟩
    · rw [hnone] at hp
      exact absurd hp (by simp)
    · exact hcl
  · intro pid hp
    rcases hfr with ⟨pid2, hp2, hfr2⟩ | ⟨hnone, _⟩
    · rw [hp] at hp2
      have hpe : pid = pid2 := Option.some.inj hp2
      subst hpe
      exact ⟨hfr2, fun today asg mgr es hcl =>
        runNextFlow_createdInv today pid asg mgr es hcl⟩
    · rw [hp] at hnone
      exact absurd hnone (by simp)

def c3events : List NextEvent :=
  [NextEvent.setType "Seguimiento", NextEvent.setDate 7,
   NextEvent.setDescription "Llamar en una semana", NextEvent.submit true]

theorem c3_witness :
    FlowResult.awaitingNext 5 "Hotel Radisson" (some 2)
        = FlowResult.awaitingNext 5 "Hotel Radisson" wAct.assigned_to ∧
    ∃ na, (runNextFlow 0 5 (some 2) false c3events).created = some na ∧
      na.prospect_id = some 5 ∧ na.status = ActivityStatus.pending := by
  have h := c3_mandatory_followup 0 wAct "Cliente acepto cotizacion" "Hotel Radisson"
    wAct2 (FlowResult.awaitingNext 5 "Hotel Radisson" (some 2)) (by decide)
  have h2 := h.2 5 (by decide)
  exact ⟨h2.1, h2.2 0 (some 2) false c3events (by decide)⟩

/-- C4: the mandatory next-activity modal ignores outside clicks, escape
key presses and backdrop close attempts (it only raises the close warning,
changing neither the closed flag, the created activity nor the request
count); it closes only through a successful create with validated fields;
validation accepts exactly a selected type, a today-or-future date and a
description of trimmed length at least 5; an invalid submit leaves the
state unchanged and performs no network request. -/
theorem c4_modal_not_dismissible (today : Int) (pid : Nat) (asg : Option Nat)
    (mgr : Bool) (f : NextFlow) (e : NextEvent) :
    ((e = NextEvent.pointerDownOutside ∨ e = NextEvent.escapeKeyDown ∨
        e = NextEvent.openChange false) →
      (nextStep today pid asg mgr f e).closed = f.closed ∧
      (nextStep today pid asg mgr f e).created = f.created ∧
      (nextStep today pid asg mgr f e).network = f.network) ∧
    ((nextStep today pid asg mgr f e).closed = true →
      f.closed = true ∨
        (e = NextEvent.submit true ∧ validateFields today f.modal = true)) ∧
    (validateFields today f.modal = true ↔
      (∃ t, f.modal.activityType = some t) ∧
      (∃ d, f.modal.scheduledDate = some d ∧ today ≤ d) ∧
      minDescriptionLength ≤ (jsTrim f.modal.description).length) ∧
    (∀ ok, e = NextEvent.submit ok → validateFields today f.modal = false →
      nextStep today pid asg mgr f e = f) := by
  refine ⟨?_, nextStep_closed_of today pid asg mgr f e, validateFields_iff today f.modal, ?_⟩
  · intro hd
    by_cases hcl : f.closed = true
    · rw [nextStep_of_closed today pid asg mgr f e hcl]
      exact ⟨rfl, rfl, rfl⟩
    · rcases hd with rfl | rfl | rfl
      · exact ⟨by simp [nextStep, hcl], by simp [nextStep, hcl], by simp [nextStep, hcl]⟩
      · exact ⟨by simp [nextStep, hcl], by simp [nextStep, hcl], by simp [nextStep, hcl]⟩
      · exact ⟨by simp [nextStep, hcl], by simp [nextStep, hcl], by simp [nextStep, hcl]⟩
  · intro ok he hv
    subst he
    by_cases hcl : f.closed = true
    · exact nextStep_of_closed today pid asg mgr f _ hcl
    · simp [nextStep, hcl, hv]

theorem c4_witness :
    ((nextStep 0 5 none false initNextFlow NextEvent.pointerDownOutside).closed
        = initNextFlow.closed ∧
     (nextStep 0 5 none false initNextFlow NextEvent.pointerDownOutside).created
        = initNextFlow.created ∧
     (nextStep 0 5 none false initNextFlow NextEvent.pointerDownOutside).network
        = initNextFlow.network) ∧
    nextStep 0 5 none false initNextFlow (NextEvent.submit true) = initNextFlow :=
  ⟨(c4_modal_not_dismissible 0 5 none false initNextFlow NextEvent.pointerDownOutside).1
      (Or.inl rfl),
   (c4_modal_not_dismissible 0 5 none false initNextFlow (NextEvent.submit true)).2.2.2
      true rfl (by decide)⟩

theorem eligibleForDailyCall_spec (today : Int) (db : Db) (p : Prospect)
    (h : eligibleForDailyCall today db p = true) :
    p.current_phase = "Prospección" ∧
    ∀ a ∈ db.activities, a.prospect_id = some p.id →
      (a.status = ActivityStatus.pending → today + 7 < a.scheduled_date) ∧
      (a.status = ActivityStatus.completed →
        ∀ t, a.completed_at = some t → t < today - 3) ∧
      (a.activity_type = "Llamada" ∧ a.created_by = CreatedBy.system →
        a.created_at < today - 2) := by
  simp only [eligibleForDailyCall, Bool.and_eq_true, Bool.not_eq_true',
    decide_eq_true_eq] at h
  obtain ⟨⟨⟨hphase, hpend⟩, hcomp⟩, hcall⟩ := h
  refine ⟨hphase, ?_⟩
  intro a ha hpid
  refine ⟨?_, ?_, ?_⟩
  · intro hst
    by_contra hle
    have : hasPendingSoon today db.activities p.id = true := by
      unfold hasPendingSoon
      refine List.any_eq_true.mpr ⟨a, ha, ?_⟩
      simp [hpid, hst]
      omega
    rw [this] at hpend
    exact absurd hpend (by simp)
  · intro hst t ht
    by_contra hle
    have : hasCompletedRecent today db.activities p.id = true := by
      unfold hasCompletedRecent
      refine List.any_eq_true.mpr ⟨a, ha, ?_⟩
      rw [ht]
      simp [hpid, hst]
      omega
    rw [this] at hcomp
    exact absurd hcomp (by simp)
  · intro hty
    by_contra hle
    have : hasRecentSystemCall today db.activities p.id = true := by
      unfold hasRecentSystemCall
      refine List.any_eq_true.mpr ⟨a, ha, ?_⟩
      simp [hpid, hty.1, hty.2]
      omega
    rw [this] at hcall
    exact absurd hcall (by simp)

/-- C5: the daily-call eligibility query returns at most three prospects,
all in phase Prospección, none of which has a pending activity scheduled
on or before seven days from today, a completed activity completed within
the last three days, or a system-created call activity created within the
last two days. -/
theorem c5_daily_call_eligibility (today : Int) (db : Db)
    (shuffle : List Prospect → List Prospect)
    (hs : ∀ l, (shuffle l).Perm l) :
    (get_prospects_for_daily_calls today db shuffle).length ≤ 3 ∧
    ∀ p ∈ get_prospects_for_daily_calls today db shuffle,
      p.current_phase = "Prospección" ∧
      ∀ a ∈ db.activities, a.prospect_id = some p.id →
        (a.status = ActivityStatus.pending → today + 7 < a.scheduled_date) ∧
        (a.status = ActivityStatus.completed →
          ∀ t, a.completed_at = some t → t < today - 3) ∧
        (a.activity_type = "Llamada" ∧ a.created_by = CreatedBy.system →
          a.created_at < today - 2) := by
  constructor
  · exact List.length_take_le 3 _
  · intro p hp
    have hp2 : p ∈ shuffle (db.prospects.filter (eligibleForDailyCall today db)) :=
      List.mem_of_mem_take hp
    have hp3 : p ∈ db.prospects.filter (eligibleForDailyCall today db) :=
      (hs _).mem_iff.mp hp2
    exact eligibleForDailyCall_spec today db p (List.mem_filter.mp hp3).2

def wProspect : Prospect :=
  { id := 10
    company_name := "Hotel Radisson"
    current_phase := "Prospección" }

def wFarAct : Activity :=
  { id := 3
    prospect_id := some 10
    activity_type := "Seguimiento"
    scheduled_date := 20
    status := ActivityStatus.pending
    notes := none
    completion_comment := none
    block_reason := none
    assigned_to := none
    created_by := CreatedBy.salesperson
    completed_at := none
    created_at := 0 }

def wDb5 : Db :=
  { prospects := [wProspect]
    activities := [wFarAct]
    user_profiles := [] }

theorem c5_witness :
    (get_prospects_for_daily_calls 0 wDb5 id).length ≤ 3 ∧
    wProspect.current_phase = "Prospección" ∧
    (0 : Int) + 7 < wFarAct.scheduled_date :=
  have h := c5_daily_call_eligibility 0 wDb5 id (fun l => List.Perm.refl l)
  ⟨h.1, (h.2 wProspect (by decide)).1,
   ((h.2 wProspect (by decide)).2 wFarAct (by decide) (by decide)).1 (by decide)⟩

/-- C6: if a system-generated call activity was already created today the
generation operation returns zero and inserts nothing; running the
operation a second time on the same day therefore always generates zero
additional activities and leaves the database unchanged. -/
theorem c6_idempotent_daily_calls (today : Int) (dow : Nat) (db : Db)
    (shuffle : List Prospect → List Prospect) :
    ((∃ a ∈ db.activities, a.activity_type = "Llamada" ∧
        a.created_by = CreatedBy.system ∧ today ≤ a.created_at) →
      generateDailyCalls today dow db shuffle = (0, db)) ∧
    generateDailyCalls today dow
        (generateDailyCalls today dow db shuffle).2 shuffle
      = (0, (generateDailyCalls today dow db shuffle).2) := by
  constructor
  · rintro ⟨a, ha, h1, h2, h3⟩
    unfold generateDailyCalls
    by_cases hw : dow < 1 ∨ 4 < dow
    · rw [if_pos hw]
    · rw [if_neg hw]
      have hcnt : 0 < countTodaySystemCalls today db := by
        unfold countTodaySystemCalls
        exact List.length_pos_of_mem (List.mem_filter.mpr ⟨ha, by simp [h1, h2, h3]⟩)
      rw [if_pos hcnt]
  · by_cases hw : dow < 1 ∨ 4 < dow
    · have h1 : generateDailyCalls today dow db shuffle = (0, db) := by
        unfold generateDailyCalls
        rw [if_pos hw]
      rw [h1]
      simpa using h1
    · by_cases hcnt : 0 < countTodaySystemCalls today db
      · have h1 : generateDailyCalls today dow db shuffle = (0, db) := by
          unfold generateDailyCalls
          rw [if_neg hw, if_pos hcnt]
        rw [h1]
        simpa using h1
      · cases hsp : db.user_profiles.find? (fun u => decide (u.role = "salesperson")) with
        | none =>
          have h1 : generateDailyCalls today dow db shuffle = (0, db) := by
            simp [generateDailyCalls, hw, hcnt, hsp]
          rw [h1]
          simpa using h1
        | some sp =>
          by_cases hpe : (get_prospects_for_daily_calls today db shuffle).isEmpty = true
          · have h1 : generateDailyCalls today dow db shuffle = (0, db) := by
              simp [generateDailyCalls, hw, hcnt, hsp, hpe]
            rw [h1]
            simpa using h1
          · have h1 : generateDailyCalls today dow db shuffle =
                ((((get_prospects_for_daily_calls today db shuffle).take 3).map
                    (dailyCallActivity today sp.id)).length,
                 { db with activities := db.activities ++ ((get_prospects_for_daily_calls today db shuffle).take 3).map (dailyCallActivity today sp.id) }) := by
              simp [generateDailyCalls, hw, hcnt, hsp, hpe]
              exact fun hcontra => absurd hcontra (by omega)
            rw [h1]
            unfold generateDailyCalls
            rw [if_neg hw]
            have hne : ((get_prospects_for_daily_calls today db shuffle).take 3).map
                (dailyCallActivity today sp.id) ≠ [] := by
              cases hl : get_prospects_for_daily_calls today db shuffle with
              | nil => rw [hl] at hpe; exact absurd rfl hpe
              | cons q qs => simp [hl]
            have hcnt2 : 0 < countTodaySystemCalls today
                { db with activities := db.activities ++ ((get_prospects_for_daily_calls today db shuffle).take 3).map (dailyCallActivity today sp.id) } := by
              unfold countTodaySystemCalls
              obtain ⟨b, hb⟩ := List.exists_mem_of_ne_nil _ hne
              have hbmem : b ∈ db.activities ++ ((get_prospects_for_daily_calls today db shuffle).take 3).map (dailyCallActivity today sp.id) :=
                List.mem_append.mpr (Or.inr hb)
              have hbp : (decide (b.activity_type = "Llamada") && decide (b.created_by = CreatedBy.system) && decide (today ≤ b.created_at)) = true := by
                obtain ⟨q, _, rfl⟩ := List.mem_map.mp hb
                simp [dailyCallActivity]
              exact List.length_pos_of_mem (List.mem_filter.mpr ⟨hbmem, hbp⟩)
            rw [if_pos hcnt2]

def wCallAct : Activity :=
  { id := 4
    prospect_id := some 10
    activity_type := "Llamada"
    scheduled_date := 0
    status := ActivityStatus.pending
    notes := none
    completion_comment := none
    block_reason := none
    assigned_to := some 2
    created_by := CreatedBy.system
    completed_at := none
    created_at := 0 }

def wDb6 : Db :=
  { prospects := [wProspect]
    activities := [wCallAct]
    user_profiles := [] }

theorem c6_witness :
    generateDailyCalls 0 1 wDb6 id = (0, wDb6) ∧
    generateDailyCalls 0 1 (generateDailyCalls 0 1 wDb6 id).2 id
      = (0, (generateDailyCalls 0 1 wDb6 id).2) :=
  ⟨(c6_idempotent_daily_calls 0 1 wDb6 id).1
      ⟨wCallAct, by decide, by decide, by decide, by decide⟩,
   (c6_idempotent_daily_calls 0 1 wDb6 id).2⟩

/-- C7: generation only creates activities Monday through Thursday (on
Friday, Saturday or Sunday it returns zero and changes nothing); whatever
it inserts is a list of at most three activities, each a pending system
"Llamada" scheduled today and assigned to a salesperson from the user
profiles. -/
theorem c7_weekday_and_shape (today : Int) (dow : Nat) (db : Db)
    (shuffle : List Prospect → List Prospect) (g : Nat) (db2 : Db)
    (h : generateDailyCalls today dow db shuffle = (g, db2)) :
    ((dow = 0 ∨ dow = 5 ∨ dow = 6) → g = 0 ∧ db2 = db) ∧
    g ≤ 3 ∧
    ∃ newActs : List Activity,
      db2.activities = db.activities ++ newActs ∧
      newActs.length = g ∧
      ∀ a ∈ newActs,
        a.activity_type = "Llamada" ∧
        a.scheduled_date = today ∧
        a.status = ActivityStatus.pending ∧
        a.created_by = CreatedBy.system ∧
        ∃ u ∈ db.user_profiles, u.role = "salesperson" ∧ a.assigned_to = some u.id := by
  by_cases hw : dow < 1 ∨ 4 < dow
  · have h0 : generateDailyCalls today dow db shuffle = (0, db) := by
      unfold generateDailyCalls
      rw [if_pos hw]
    rw [h0] at h
    obtain ⟨hg, hdb⟩ := Prod.mk.injEq .. ▸ h
    subst hg
    subst hdb
    exact ⟨fun _ => ⟨rfl, rfl⟩, by omega, [], by simp, rfl, by simp⟩
  · have hnw : ¬(dow = 0 ∨ dow = 5 ∨ dow = 6) := by omega
    by_cases hcnt : 0 < countTodaySystemCalls today db
    · have h0 : generateDailyCalls today dow db shuffle = (0, db) := by
        unfold generateDailyCalls
        rw [if_neg hw, if_pos hcnt]
      rw [h0] at h
      obtain ⟨hg, hdb⟩ := Prod.mk.injEq .. ▸ h
      subst hg
      subst hdb
      exact ⟨fun hd => absurd hd hnw, by omega, [], by simp, rfl, by simp⟩
    · cases hsp : db.user_profiles.find? (fun u => decide (u.role = "salesperson")) with
      | none =>
        have h0 : generateDailyCalls today dow db shuffle = (0, db) := by
          simp [generateDailyCalls, hw, hcnt, hsp]
        rw [h0] at h
        obtain ⟨hg, hdb⟩ := Prod.mk.injEq .. ▸ h
        subst hg
        subst hdb
        exact ⟨fun hd => absurd hd hnw, by omega, [], by simp, rfl, by simp⟩
      | some sp =>
        have hspmem : sp ∈ db.user_profiles := List.mem_of_find?_eq_some hsp
        have hsprole : sp.role = "salesperson" := by
          simpa using List.find?_some hsp
        by_cases hpe : (get_prospects_for_daily_calls today db shuffle).isEmpty = true
        · have h0 : generateDailyCalls today dow db shuffle = (0, db) := by
            simp [generateDailyCalls, hw, hcnt, hsp, hpe]
          rw [h0] at h
          obtain ⟨hg, hdb⟩ := Prod.mk.injEq .. ▸ h
          subst hg
          subst hdb
          exact ⟨fun hd => absurd hd hnw, by omega, [], by simp, rfl, by simp⟩
        · have h0 : generateDailyCalls today dow db shuffle =
              ((((get_prospects_for_daily_calls today db shuffle).take 3).map
                  (dailyCallActivity today sp.id)).length,
               { db with activities := db.activities ++ ((get_prospects_for_daily_calls today db shuffle).take 3).map (dailyCallActivity today sp.id) }) := by
            simp [generateDailyCalls, hw, hcnt, hsp, hpe]
            exact fun hcontra => absurd hcontra (by omega)
          rw [h0] at h
          obtain ⟨hg, hdb⟩ := Prod.mk.injEq .. ▸ h
          subst hg
          subst hdb
          refine ⟨fun hd => absurd hd hnw, ?_, _, rfl, rfl, ?_⟩
          · rw [List.length_map]
            exact List.length_take_le 3 _
          · intro a ham
            obtain ⟨q, _, rfl⟩ := List.mem_map.mp ham
            exact ⟨rfl, rfl, rfl, rfl, sp, hspmem, hsprole, rfl⟩

def wSales : UserProfile :=
  { id := 2
    full_name := "Ana Vendedora"
    role := "salesperson" }

def wDb7 : Db :=
  { prospects := [wProspect]
    activities := []
    user_profiles := [wSales] }

def wDb7b : Db :=
  { prospects := [wProspect]
    activities := [dailyCallActivity 0 2 wProspect]
    user_profiles := [wSales] }

theorem c7_witness :
    1 ≤ 3 ∧
    ∃ newActs : List Activity,
      wDb7b.activities = wDb7.activities ++ newActs ∧
      newActs.length = 1 ∧
      ∀ a ∈ newActs,
        a.activity_type = "Llamada" ∧
        a.scheduled_date = 0 ∧
        a.status = ActivityStatus.pending ∧
        a.created_by = CreatedBy.system ∧
        ∃ u ∈ wDb7.user_profiles, u.role = "salesperson" ∧ a.assigned_to = some u.id := by
  have h := c7_weekday_and_shape 0 1 wDb7 id 1 wDb7b (by decide)
  obtain ⟨newActs, he, hl, hall⟩ := h.2.2
  exact ⟨h.2.1, newActs, he, hl, hall⟩

/-- C8: with the role-based row visibility modelled from the spec, every
dashboard bucket query run by a salesperson returns only activities
assigned to that salesperson, while for a manager the visible rows are all
rows, so the queries filter regardless of assignee. -/
theorem c8_role_visibility (today : Int) (viewer : UserProfile) (db : Db) (a : Activity) :
    (viewer.role = "salesperson" →
      (a ∈ urgentActivities today viewer db ∨ a ∈ todayActivities today viewer db ∨
       a ∈ weekActivities today viewer db ∨ a ∈ blockedActivities viewer db ∨
       a ∈ newCallsActivities today viewer db ∨ a ∈ generalActivities viewer db) →
      a.assigned_to = some viewer.id) ∧
    (viewer.role = "manager" → visibleActivities viewer db = db.activities) := by
  constructor
  · intro hrole hmem
    have hvis : a ∈ visibleActivities viewer db := by
      rcases hmem with h | h | h | h | h | h
      · exact (List.mem_filter.mp h).1
      · exact (List.mem_filter.mp h).1
      · exact (List.mem_filter.mp h).1
      · exact (List.mem_filter.mp h).1
      · exact (List.mem_filter.mp (List.mem_of_mem_take h)).1
      · exact (List.mem_filter.mp h).1
    have hr : rlsVisible viewer a = true := (List.mem_filter.mp hvis).2
    simp [rlsVisible, hrole] at hr
    exact hr
  · intro hrole
    unfold visibleActivities
    exact List.filter_eq_self.mpr (fun x _ => by simp [rlsVisible, hrole])

def wManager : UserProfile :=
  { id := 9
    full_name := "Gerente"
    role := "manager" }

def wUrgAct : Activity :=
  { id := 6
    prospect_id := some 10
    activity_type := "Visita"
    scheduled_date := -1
    status := ActivityStatus.pending
    notes := none
    completion_comment := none
    block_reason := none
    assigned_to := some 2
    created_by := CreatedBy.manager
    completed_at := none
    created_at := -1 }

def wDb8 : Db :=
  { prospects := [wProspect]
    activities := [wUrgAct]
    user_profiles := [wSales, wManager] }

theorem c8_witness :
    wUrgAct.assigned_to = some wSales.id ∧
    visibleActivities wManager wDb8 = wDb8.activities :=
  ⟨(c8_role_visibility 0 wSales wDb8 wUrgAct).1 rfl (Or.inl (by decide)),
   (c8_role_visibility 0 wManager wDb8 wUrgAct).2 rfl⟩

/-- C9 (amended): the urgent, today and week buckets are pairwise disjoint
(their date conditions exclude each other), and every activity passing the
new-calls filter that has a non-null prospect also passes the today
filter.  (The unamended inclusion fails for a prospect-less activity,
which the new-calls filter accepts but the today filter rejects.) -/
theorem c9_buckets_disjoint (today : Int) (a : Activity) :
    ¬(urgentFilter today a = true ∧ todayFilter today a = true) ∧
    ¬(urgentFilter today a = true ∧ weekFilter today a = true) ∧
    ¬(todayFilter today a = true ∧ weekFilter today a = true) ∧
    (newCallsFilter today a = true → a.prospect_id.isSome = true →
      todayFilter today a = true) := by
  refine ⟨?_, ?_, ?_, ?_⟩
  · rintro ⟨h1, h2⟩
    simp [urgentFilter, todayFilter] at h1 h2
    omega
  · rintro ⟨h1, h2⟩
    simp [urgentFilter, weekFilter] at h1 h2
    omega
  · rintro ⟨h1, h2⟩
    simp [todayFilter, weekFilter] at h1 h2
    omega
  · intro h hp
    simp [newCallsFilter] at h
    simp [todayFilter, hp]
    tauto

def c9act : Activity :=
  { id := 7
    prospect_id := none
    activity_type := "Llamada"
    scheduled_date := 0
    status := ActivityStatus.pending
    notes := none
    completion_comment := none
    block_reason := none
    assigned_to := some 2
    created_by := CreatedBy.system
    completed_at := none
    created_at := 0 }

def c9db : Db :=
  { prospects := []
    activities := [c9act]
    user_profiles := [wManager] }

theorem c9_counterexample :
    c9act ∈ newCallsActivities 0 wManager c9db ∧
    c9act ∉ todayActivities 0 wManager c9db := by
  decide

def c9act2 : Activity :=
  { c9act with prospect_id := some 10 }

theorem c9_witness :
    newCallsFilter 0 c9act2 = true ∧ todayFilter 0 c9act2 = true :=
  ⟨by decide, (c9_buckets_disjoint 0 c9act2).2.2.2 (by decide) (by decide)⟩

end Kadcr
